import Mathlib

/-!
# Verification of the mateai knowledge pipeline and retrieval engine

Shallow embedding of the core operations of the repository:

* `EnrichmentProcessor.calculateImportance` (src/packages/core/src/processors/enrichment.ts)
* `SummarizationProcessor.summarize` / `fallbackSummary` (summarization.ts)
* `VectorStore.store` / `VectorStore.search` / `updateAccessStats` (memory/vector-store.ts)
* `MemoryRetrievalService.mapToRetrievedChunks` / `calculateRelevanceScores` /
  `rerankResults` / `parseRankingResponse` (memory/vector-store.ts, retrieval part)
* `ContextBuilder.buildContext` / `selectChunks` (agents/context-builder.ts)
* `OrchestratorAgent.executeAgentLoop` (agents/orchestrator-agent.ts)
* `IngestionWorker.processJob` (packages/workers/src/ingestion/worker.ts)

Conventions of the embedding:

* JavaScript numbers are modelled as `ℚ` (scores, similarities) or `ℤ`/`ℕ`
  (token counts, lengths); no floating point artifacts are modelled.
* JavaScript truthiness is modelled explicitly where the source relies on it
  (`x || d` with `0` or `""` falsy).
* Database tables are modelled as Lean lists of rows; SQL queries are modelled
  by the corresponding list operations.  An SQL `ORDER BY` without a full key
  is nondeterministic on ties, so `VectorStore.search` is modelled as a
  relation quantifying over the permutation the database chose.
* External calls (LLM completions, `JSON.stringify`, `Number.toFixed`) are
  modelled as parameters: the repository's code never inspects their results
  beyond what the parameter type exposes.
-/

/-! ## Common helpers -/

/-- JavaScript `o || d` for an optional number: `null`/`undefined` and `0` are
falsy and select the default. -/
def jsOrQ (o : Option ℚ) (d : ℚ) : ℚ :=
  match o with
  | some x => if x = 0 then d else x
  | none => d

/-- JavaScript `o || d` for an optional natural number: `0` is falsy. -/
def jsOrNat (o : Option ℕ) (d : ℕ) : ℕ :=
  match o with
  | some n => if n = 0 then d else n
  | none => d

/-- JavaScript `o || d` for an optional string: the empty string is falsy. -/
def jsOrStr (o : Option String) (d : String) : String :=
  match o with
  | some s => if s = "" then d else s
  | none => d

/-- JavaScript truthiness of an optional string (`undefined` and `""` falsy). -/
def truthyStr : Option String → Bool
  | none => false
  | some s => s ≠ ""

/-- JavaScript `xs && xs.length > 0` for an optional list. -/
def optListNonempty {α : Type} : Option (List α) → Bool
  | none => false
  | some xs => xs.length > 0

/-- JavaScript `Array.prototype.join(sep)`. -/
def joinSep (sep : String) : List String → String
  | [] => ""
  | [p] => p
  | p :: ps => p ++ sep ++ joinSep sep ps

/-! ## Enrichment processor (enrichment.ts)

The payload is an opaque JSON object; the embedding keeps the fields the
processor reads.  `JSON.stringify` is an external library function and is a
parameter of the text extraction. -/

/-- One Slack reaction (the processor only looks at the list length). -/
structure ReactionM where
  name : String := ""
  deriving Repr, DecidableEq

/-- The payload fields read by `EnrichmentProcessor`. -/
structure PayloadM where
  text : Option String := none
  title : Option String := none
  description : Option String := none
  message : Option String := none
  body : Option String := none
  user : Option String := none
  thread_ts : Option String := none
  reactions : Option (List ReactionM) := none
  priority : Option String := none
  deriving Repr, DecidableEq

/-- A raw event as seen by the enrichment processor. -/
structure RawEventM where
  id : String := ""
  source : String
  eventType : String := ""
  externalId : Option String := none
  payload : PayloadM
  deriving Repr, DecidableEq

/-- The entity record built by `extractEntities` (only presence of links and
mentions matters for the importance score). -/
structure EntitiesM where
  users : Option (List String) := none
  mentions : Option (List String) := none
  links : Option (List String) := none
  keywords : Option (List String) := none
  deriving Repr, DecidableEq

/-- JS `[a, b].filter(Boolean).join('\n')` as used for jira and git payloads. -/
def joinTruthy (parts : List (Option String)) : String :=
  joinSep "\n" ((parts.filterMap id).filter (fun s => s ≠ ""))

/-- Model of `EnrichmentProcessor.extractText`: text extraction per source
(`JSON.stringify` for unknown sources is the parameter `stringify`). -/
def EnrichmentProcessor.extractText (stringify : PayloadM → String)
    (ev : RawEventM) : String :=
  if ev.source = "slack" then
    match ev.payload.text with
    | some s => s
    | none => ""
  else if ev.source = "jira" then
    joinTruthy [ev.payload.title, ev.payload.description]
  else if ev.source = "git" then
    joinTruthy [ev.payload.message, ev.payload.body]
  else
    stringify ev.payload

/-- Model of `EnrichmentProcessor.calculateImportance`: base score 0.5, adjusted by the
source's signal list, clamped to [0,1] by `Math.max(0, Math.min(1, score))`. -/
def EnrichmentProcessor.calculateImportance (stringify : PayloadM → String)
    (ev : RawEventM) (entities : EntitiesM) : ℚ :=
  let s0 : ℚ := 1/2
  let s1 := if ev.source = "slack" ∧ truthyStr ev.payload.thread_ts
    then s0 - 1/10 else s0
  let s2 := if ev.source = "slack" ∧ optListNonempty ev.payload.reactions
    then s1 + 2/10 else s1
  let s3 := if ev.source = "jira" ∧
      (ev.payload.priority = some "High" ∨ ev.payload.priority = some "Critical")
    then s2 + 3/10 else s2
  let s4 := if optListNonempty entities.links then s3 + 1/10 else s3
  let s5 := if optListNonempty entities.mentions then s4 + 3/20 else s4
  let s6 := if 200 < (EnrichmentProcessor.extractText stringify ev).length
    then s5 + 1/10 else s5
  max 0 (min 1 s6)

/-! ## Theorems for claim C3 -/

/-- Clamping to [0,1] from below. -/
lemma clamp01_nonneg (x : ℚ) : 0 ≤ max 0 (min 1 x) := le_max_left _ _

/-- Clamping to [0,1] from above. -/
lemma clamp01_le_one (x : ℚ) : max 0 (min 1 x) ≤ 1 :=
  max_le (by norm_num) (min_le_left _ _)

/-- C3: for every raw event (any source, any payload) the importance score
starts at 0.5, is adjusted by exactly the listed signals (slack thread reply
−0.1, slack reactions +0.2, jira priority High/Critical +0.3, links +0.1,
mentions +0.15, extracted text longer than 200 characters +0.1), and the final
value lies in [0,1] for all signal combinations. -/
theorem calculateImportance_signals_and_clamp
    (stringify : PayloadM → String) (ev : RawEventM) (entities : EntitiesM) :
    EnrichmentProcessor.calculateImportance stringify ev entities =
      max 0 (min 1 ((1:ℚ)/2
        + (if ev.source = "slack" ∧ truthyStr ev.payload.thread_ts
            then -(1/10) else 0)
        + (if ev.source = "slack" ∧ optListNonempty ev.payload.reactions
            then 2/10 else 0)
        + (if ev.source = "jira" ∧ (ev.payload.priority = some "High" ∨
              ev.payload.priority = some "Critical")
            then 3/10 else 0)
        + (if optListNonempty entities.links then 1/10 else 0)
        + (if optListNonempty entities.mentions then 3/20 else 0)
        + (if 200 < (EnrichmentProcessor.extractText stringify ev).length
            then 1/10 else 0)))
    ∧ 0 ≤ EnrichmentProcessor.calculateImportance stringify ev entities
    ∧ EnrichmentProcessor.calculateImportance stringify ev entities ≤ 1 := by
  refine ⟨?_, ?_, ?_⟩
  · simp only [EnrichmentProcessor.calculateImportance]
    split_ifs <;> norm_num
  · simp only [EnrichmentProcessor.calculateImportance]
    exact clamp01_nonneg _
  · simp only [EnrichmentProcessor.calculateImportance]
    exact clamp01_le_one _

/-! ## Vector store (memory/vector-store.ts)

The `knowledge_chunks` table is a list of rows.  Timestamps are naturals,
scores rationals.  pgvector's `<=>` is the cosine distance; per the data-model
both operands are L2-normalized, so the distance is `1 - dot product`. -/

/-- A row of the `knowledge_chunks` table. -/
structure KnowledgeChunk where
  id : String
  content : String := ""
  contentHash : String := ""
  sourceType : String := ""
  sourceId : String := ""
  metadata : List (String × String) := []
  importanceScore : Option ℚ := none
  embedding : Option (List ℚ) := none
  embeddingModel : String := ""
  tier : String := "hot"
  accessCount : ℕ := 0
  lastAccessedAt : Option ℕ := none
  createdAt : ℕ := 0
  updatedAt : ℕ := 0
  deriving Repr, DecidableEq

/-- Dot product of two embedding vectors. -/
def dotProduct (a b : List ℚ) : ℚ := (List.zipWith (· * ·) a b).sum

/-- pgvector cosine distance `a <=> b` for L2-normalized operands. -/
def cosineDistance (a b : List ℚ) : ℚ := 1 - dotProduct a b

/-- Distance of the query vector to a row's embedding. -/
def chunkDistance (q : List ℚ) (c : KnowledgeChunk) : ℚ :=
  cosineDistance (c.embedding.getD []) q

/-- Similarity `1 - (embedding <=> query)` as selected by `VectorStore.search`. -/
def chunkSimilarity (q : List ℚ) (c : KnowledgeChunk) : ℚ :=
  1 - chunkDistance q c

/-- Options of `VectorStore.search`; `none` models an absent (undefined)
option, with destructuring defaults `topK = 20`,
`similarityThreshold = 0.7`, `tiers = ['hot', 'warm']`. -/
structure SearchOptions where
  topK : Option ℕ := none
  similarityThreshold : Option ℚ := none
  sourceTypes : Option (List String) := none
  tiers : Option (List String) := none

/-- A row of `VectorStore.search`'s result set. -/
structure SearchResultM where
  chunk : KnowledgeChunk
  similarity : ℚ
  deriving Repr, DecidableEq

/-- The `WHERE` clause of `VectorStore.search`: embedding present, tier in
the tier filter, source-type filter only when a non-empty list was given, and
`1 - (embedding <=> query) >= similarityThreshold`. -/
def VectorStore.searchFilter (db : List KnowledgeChunk) (q : List ℚ)
    (opts : SearchOptions) : List KnowledgeChunk :=
  let tiers := opts.tiers.getD ["hot", "warm"]
  let threshold := opts.similarityThreshold.getD (7/10)
  db.filter (fun c =>
    c.embedding.isSome
    && tiers.contains c.tier
    && (match opts.sourceTypes with
        | some sts => if sts.length > 0 then sts.contains c.sourceType else true
        | none => true)
    && decide (threshold ≤ chunkSimilarity q c))

/-- Model of `VectorStore.search` as a relation between the table and the returned
rows: the SQL `ORDER BY embedding <=> query LIMIT topK` fixes only the
distance ordering, so the database may return any distance-sorted permutation
of the filtered rows, truncated to `topK`. -/
def VectorStore.searchRel (db : List KnowledgeChunk) (q : List ℚ)
    (opts : SearchOptions) (out : List SearchResultM) : Prop :=
  ∃ perm : List KnowledgeChunk,
    perm.Perm (VectorStore.searchFilter db q opts)
    ∧ perm.Pairwise (fun a b => chunkDistance q a ≤ chunkDistance q b)
    ∧ out = (perm.take (opts.topK.getD 20)).map
        (fun c => { chunk := c, similarity := chunkSimilarity q c })

/-- The ordering claimed by the specification: strictly descending
similarity, ties broken by newer `created_at` first, then lexicographic id. -/
def tieBreakOrdered (out : List SearchResultM) : Prop :=
  out.Pairwise (fun a b => b.similarity < a.similarity
    ∨ (a.similarity = b.similarity ∧ (b.chunk.createdAt < a.chunk.createdAt
        ∨ (a.chunk.createdAt = b.chunk.createdAt ∧ a.chunk.id ≤ b.chunk.id))))

/-- First of two equal-similarity rows (older, smaller id). -/
def chunkA : KnowledgeChunk :=
  { id := "a", contentHash := "ha", sourceType := "slack",
    embedding := some [1], createdAt := 0 }

/-- Second of two equal-similarity rows (newer). -/
def chunkB : KnowledgeChunk :=
  { id := "b", contentHash := "hb", sourceType := "slack",
    embedding := some [1], createdAt := 1 }

/-- Input of `VectorStore.store`. -/
structure StoreChunkData where
  content : String := ""
  contentHash : String
  sourceType : String := ""
  sourceId : String := ""
  metadata : List (String × String) := []
  importanceScore : ℚ := 1/2
  embedding : List ℚ := []
  embeddingModel : String := ""
  deriving Repr, DecidableEq

/-- The row the `INSERT` of `VectorStore.store` creates: the data's columns
plus `tier = 'hot'`, `access_count = 0`, `gen_random_uuid()` (modelled by
`freshId`) and `NOW()` (modelled by `now`). -/
def VectorStore.storedChunk (data : StoreChunkData) (freshId : String)
    (now : ℕ) : KnowledgeChunk :=
  { id := freshId, content := data.content,
    contentHash := data.contentHash, sourceType := data.sourceType,
    sourceId := data.sourceId, metadata := data.metadata,
    importanceScore := some data.importanceScore,
    embedding := some data.embedding,
    embeddingModel := data.embeddingModel, tier := "hot",
    accessCount := 0, lastAccessedAt := none,
    createdAt := now, updatedAt := now }

/-- Model of `VectorStore.store`: look up an existing row by `contentHash`
(`findUnique`); if present return it unchanged, otherwise insert the new
row. -/
def VectorStore.store (db : List KnowledgeChunk) (data : StoreChunkData)
    (freshId : String) (now : ℕ) : KnowledgeChunk × List KnowledgeChunk :=
  match db.find? (fun c => c.contentHash == data.contentHash) with
  | some existing => (existing, db)
  | none =>
    (VectorStore.storedChunk data freshId now,
      db ++ [VectorStore.storedChunk data freshId now])

/-- Model of `VectorStore.updateAccessStats`: a single `updateMany` incrementing
`access_count` and setting `last_accessed_at`; its try/catch swallows a
failing update (`updateFails = true`), leaving the table unchanged and only
logging a warning. -/
def VectorStore.updateAccessStats (updateFails : Bool) (now : ℕ)
    (chunkIds : List String) (db : List KnowledgeChunk) :
    List KnowledgeChunk :=
  if updateFails then db
  else db.map (fun c =>
    if chunkIds.contains c.id then
      { c with accessCount := c.accessCount + 1, lastAccessedAt := some now }
    else c)

/-- One deterministic run of `VectorStore.search` once the database has chosen
the distance-sorted permutation `perm` of the filtered rows: build the result
rows, then update access stats for the returned ids (search already holds the
result rows when the update runs). -/
def VectorStore.searchRun (updateFails : Bool) (now : ℕ)
    (db perm : List KnowledgeChunk) (q : List ℚ) (opts : SearchOptions) :
    List SearchResultM × List KnowledgeChunk :=
  let results := (perm.take (opts.topK.getD 20)).map
    (fun c => { chunk := c, similarity := chunkSimilarity q c : SearchResultM })
  let db' := if results.length > 0 then
      VectorStore.updateAccessStats updateFails now
        (results.map (fun r => r.chunk.id)) db
    else db
  (results, db')

/-- Model of `VectorStore.getById`: `findUnique` by id, then update access stats for
the found row. -/
def VectorStore.getByIdRun (updateFails : Bool) (now : ℕ)
    (db : List KnowledgeChunk) (id : String) :
    Option KnowledgeChunk × List KnowledgeChunk :=
  match db.find? (fun c => c.id == id) with
  | some c => (some c, VectorStore.updateAccessStats updateFails now [id] db)
  | none => (none, db)


/-! ## Theorems for claim C1 -/

/-- A unit 1-dimensional embedding has similarity 1 to the unit query. -/
lemma chunkSimilarity_unit (c : KnowledgeChunk) (h : c.embedding = some [1]) :
    chunkSimilarity [1] c = 1 := by
  simp [chunkSimilarity, chunkDistance, cosineDistance, dotProduct, h]

/-- A unit 1-dimensional embedding has distance 0 to the unit query. -/
lemma chunkDistance_unit (c : KnowledgeChunk) (h : c.embedding = some [1]) :
    chunkDistance [1] c = 0 := by
  simp [chunkDistance, cosineDistance, dotProduct, h]

/-- A table of hot rows with unit embeddings passes the default filter. -/
lemma searchFilter_keeps (db : List KnowledgeChunk)
    (h : ∀ c ∈ db, c.embedding = some [1] ∧ c.tier = "hot") :
    VectorStore.searchFilter db [1] {} = db := by
  simp only [VectorStore.searchFilter]
  apply List.filter_eq_self.mpr
  intro c hc
  obtain ⟨hemb, htier⟩ := h c hc
  rw [chunkSimilarity_unit c hemb]
  have hle : (7/10 : ℚ) ≤ 1 := by norm_num
  simp [hemb, htier, hle]

/-- The two-row table passes the default search filter. -/
lemma searchFilter_AB :
    VectorStore.searchFilter [chunkA, chunkB] [1] {} = [chunkA, chunkB] := by
  apply searchFilter_keeps
  intro c hc
  simp only [List.mem_cons, List.not_mem_nil, or_false] at hc
  rcases hc with rfl | rfl
  · exact ⟨rfl, rfl⟩
  · exact ⟨rfl, rfl⟩

/-- The one-row table passes the default search filter. -/
lemma searchFilter_A :
    VectorStore.searchFilter [chunkA] [1] {} = [chunkA] := by
  apply searchFilter_keeps
  intro c hc
  simp only [List.mem_singleton] at hc
  subst hc
  exact ⟨rfl, rfl⟩

/-- C1 (amended): every result set of `VectorStore.search` has at most `topK`
rows (default 20), every similarity is at least the threshold (default 0.7),
and similarities are non-increasing; the SQL orders only by distance, so
equal-similarity rows come in unspecified order. -/
theorem search_topK_threshold_ordering (db : List KnowledgeChunk) (q : List ℚ)
    (opts : SearchOptions) (out : List SearchResultM)
    (h : VectorStore.searchRel db q opts out) :
    out.length ≤ opts.topK.getD 20
    ∧ (∀ r ∈ out, opts.similarityThreshold.getD (7/10) ≤ r.similarity)
    ∧ out.Pairwise (fun a b => b.similarity ≤ a.similarity) := by
  obtain ⟨perm, hperm, hsorted, hout⟩ := h
  subst hout
  refine ⟨?_, ?_, ?_⟩
  · rw [List.length_map]
    exact List.length_take_le _ _
  · intro r hr
    obtain ⟨c, hc, rfl⟩ := List.mem_map.mp hr
    have hc' : c ∈ VectorStore.searchFilter db q opts :=
      hperm.mem_iff.mp (List.mem_of_mem_take hc)
    have hcond := List.of_mem_filter hc'
    simp only [Bool.and_eq_true, decide_eq_true_eq] at hcond
    exact hcond.2
  · rw [List.pairwise_map]
    have h1 : (perm.take (opts.topK.getD 20)).Pairwise
        (fun a b => chunkDistance q a ≤ chunkDistance q b) :=
      hsorted.sublist (List.take_sublist _ _)
    refine h1.imp ?_
    intro a b hab
    simp only [chunkSimilarity]
    linarith

/-- Witness for C1: a one-row table searched with default options. -/
theorem search_topK_threshold_ordering_witness :
    [({ chunk := chunkA, similarity := 1 } : SearchResultM)].length ≤ 20
    ∧ (∀ r ∈ [({ chunk := chunkA, similarity := 1 } : SearchResultM)],
        (7/10 : ℚ) ≤ r.similarity)
    ∧ [({ chunk := chunkA, similarity := 1 } : SearchResultM)].Pairwise
        (fun a b => b.similarity ≤ a.similarity) := by
  have hrel : VectorStore.searchRel [chunkA] [1] {}
      [{ chunk := chunkA, similarity := 1 }] := by
    refine ⟨[chunkA], ?_, ?_, ?_⟩
    · rw [searchFilter_A]
    · simp
    · simp [chunkSimilarity_unit chunkA rfl]
  exact search_topK_threshold_ordering [chunkA] [1] {} _ hrel

/-- Counterexample for C1 as stated: two rows with identical embeddings (so
equal similarity) where the older, lexicographically-smaller row comes first
is a legal result of the SQL query, violating both strict similarity descent
and the claimed `created_at`/id tie-break. -/
theorem search_no_created_at_tiebreak :
    VectorStore.searchRel [chunkA, chunkB] [1] {}
      [{ chunk := chunkA, similarity := 1 },
       { chunk := chunkB, similarity := 1 }]
    ∧ ¬ tieBreakOrdered
      [{ chunk := chunkA, similarity := 1 },
       { chunk := chunkB, similarity := 1 }] := by
  constructor
  · refine ⟨[chunkA, chunkB], ?_, ?_, ?_⟩
    · rw [searchFilter_AB]
    · simp [chunkDistance_unit chunkA rfl, chunkDistance_unit chunkB rfl]
    · simp [chunkSimilarity_unit chunkA rfl, chunkSimilarity_unit chunkB rfl]
  · intro h
    have hrel := (List.pairwise_cons.mp h).1
      { chunk := chunkB, similarity := 1 } (by simp)
    simp only [tieBreakOrdered, chunkA, chunkB] at hrel
    norm_num at hrel

/-! ## Theorems for claim C2 -/

/-- Calling `store` on a table without the content hash inserts the new row. -/
lemma store_fresh (db : List KnowledgeChunk) (data : StoreChunkData)
    (freshId : String) (now : ℕ)
    (h : db.find? (fun c => c.contentHash == data.contentHash) = none) :
    VectorStore.store db data freshId now =
      (VectorStore.storedChunk data freshId now,
        db ++ [VectorStore.storedChunk data freshId now]) := by
  simp [VectorStore.store, h]

/-- Calling `store` on a table already holding the content hash returns the found row
and leaves the table unchanged. -/
lemma store_hit (db : List KnowledgeChunk) (data : StoreChunkData)
    (freshId : String) (now : ℕ) (c : KnowledgeChunk)
    (h : db.find? (fun c => c.contentHash == data.contentHash) = some c) :
    VectorStore.store db data freshId now = (c, db) := by
  simp [VectorStore.store, h]

/-- C2: `VectorStore.store` is idempotent with respect to `contentHash`.  A
first insert of a fresh hash creates a row with tier `hot` and access count 0;
a second insert with the same hash returns the first row's id and leaves the
table untouched, and exactly one row with that hash exists. -/
theorem store_contentHash_dedup (db : List KnowledgeChunk)
    (d₁ d₂ : StoreChunkData) (id₁ id₂ : String) (n₁ n₂ : ℕ)
    (hfresh : ∀ c ∈ db, c.contentHash ≠ d₁.contentHash)
    (hhash : d₂.contentHash = d₁.contentHash) :
    (VectorStore.store db d₁ id₁ n₁).1.tier = "hot"
    ∧ (VectorStore.store db d₁ id₁ n₁).1.accessCount = 0
    ∧ (VectorStore.store (VectorStore.store db d₁ id₁ n₁).2 d₂ id₂ n₂).1.id
        = (VectorStore.store db d₁ id₁ n₁).1.id
    ∧ (VectorStore.store (VectorStore.store db d₁ id₁ n₁).2 d₂ id₂ n₂).2
        = (VectorStore.store db d₁ id₁ n₁).2
    ∧ (VectorStore.store db d₁ id₁ n₁).2.countP
        (fun c => c.contentHash == d₁.contentHash) = 1 := by
  have hnone : db.find? (fun c => c.contentHash == d₁.contentHash) = none := by
    rw [List.find?_eq_none]
    intro c hc
    simpa using hfresh c hc
  have hzero : db.countP (fun c => c.contentHash == d₁.contentHash) = 0 := by
    rw [List.countP_eq_zero]
    intro c hc
    simpa using hfresh c hc
  have h₁ := store_fresh db d₁ id₁ n₁ hnone
  have hnone₂ : db.find? (fun c => c.contentHash == d₂.contentHash) = none := by
    rw [List.find?_eq_none]
    intro c hc
    simp [hhash]
    exact hfresh c hc
  have hfind₂ : (db ++ [VectorStore.storedChunk d₁ id₁ n₁]).find?
      (fun c => c.contentHash == d₂.contentHash) =
      some (VectorStore.storedChunk d₁ id₁ n₁) := by
    rw [List.find?_append, hnone₂]
    simp [VectorStore.storedChunk, hhash]
  have h₂ := store_hit (db ++ [VectorStore.storedChunk d₁ id₁ n₁]) d₂ id₂ n₂
    (VectorStore.storedChunk d₁ id₁ n₁) hfind₂
  rw [h₁]
  refine ⟨rfl, rfl, ?_, ?_, ?_⟩
  · rw [h₂]
  · rw [h₂]
  · rw [List.countP_append, hzero]
    simp [VectorStore.storedChunk]

/-- Witness for C2: storing the same content hash twice in an empty table. -/
theorem store_contentHash_dedup_witness :
    (VectorStore.store [] { contentHash := "h" } "id1" 0).1.tier = "hot"
    ∧ (VectorStore.store [] { contentHash := "h" } "id1" 0).1.accessCount = 0
    ∧ (VectorStore.store (VectorStore.store [] { contentHash := "h" } "id1" 0).2
        { contentHash := "h" } "id2" 1).1.id
        = (VectorStore.store [] { contentHash := "h" } "id1" 0).1.id
    ∧ (VectorStore.store (VectorStore.store [] { contentHash := "h" } "id1" 0).2
        { contentHash := "h" } "id2" 1).2
        = (VectorStore.store [] { contentHash := "h" } "id1" 0).2
    ∧ (VectorStore.store [] { contentHash := "h" } "id1" 0).2.countP
        (fun c => c.contentHash == "h") = 1 :=
  store_contentHash_dedup [] { contentHash := "h" } { contentHash := "h" }
    "id1" "id2" 0 1 (by intro c hc; cases hc) rfl

/-! ## Theorems for claim C10 -/

/-- C10: retrieval survives a failing access-statistics update.  The rows
returned by `VectorStore.search` and `VectorStore.getById` are the same
whether or not `updateAccessStats` fails, because the update's try/catch
swallows the error; on failure the table is simply left unchanged. -/
theorem search_getById_ignore_accessStats_failure (now : ℕ)
    (db perm : List KnowledgeChunk) (q : List ℚ) (opts : SearchOptions)
    (id : String) :
    (VectorStore.searchRun true now db perm q opts).1
      = (VectorStore.searchRun false now db perm q opts).1
    ∧ (VectorStore.getByIdRun true now db id).1
      = (VectorStore.getByIdRun false now db id).1
    ∧ (VectorStore.searchRun true now db perm q opts).2 = db
    ∧ (VectorStore.getByIdRun true now db id).2 = db := by
  refine ⟨rfl, ?_, ?_, ?_⟩
  · simp only [VectorStore.getByIdRun]
    cases db.find? (fun c => c.id == id) <;> rfl
  · simp only [VectorStore.searchRun, VectorStore.updateAccessStats]
    split <;> rfl
  · simp only [VectorStore.getByIdRun, VectorStore.updateAccessStats]
    cases db.find? (fun c => c.id == id) <;> rfl

/-! ## Summarization processor (summarization.ts)

JS strings are modelled as character lists so that `substring`/`lastIndexOf`
arithmetic is explicit.  The LLM call is a parameter of type `Except`: the
`catch` branch of `summarize` is the `.error` case. -/

/-- JS `text.lastIndexOf(' ')`: index of the last space, or −1. -/
def lastSpaceIdx (cs : List Char) : ℤ :=
  match cs.reverse.findIdx? (fun ch => ch == ' ') with
  | some k => (cs.length : ℤ) - 1 - k
  | none => -1

/-- Model of `SummarizationProcessor.fallbackSummary`: texts of at most 200 characters
are returned unchanged; longer texts are cut to 200 characters, then to the
last space (`substring(0, lastSpace)` clamps `-1` to `0`), with `'...'`
appended. -/
def SummarizationProcessor.fallbackSummary (text : List Char) : List Char :=
  if text.length ≤ 200 then text
  else
    let truncated := text.take 200
    let lastSpace := lastSpaceIdx truncated
    truncated.take lastSpace.toNat ++ ['.', '.', '.']

/-- JS `String.prototype.trim()`. -/
def trimChars (cs : List Char) : List Char :=
  ((cs.dropWhile Char.isWhitespace).reverse.dropWhile Char.isWhitespace).reverse

/-- Result of the summarization LLM call. -/
structure CompletionResponse where
  content : List Char
  tokensUsed : ℕ
  deriving Repr, DecidableEq

/-- The enriched event fields `summarize` reads and carries through. -/
structure EnrichedEventS where
  extractedText : List Char
  importance : ℚ := 1/2
  deriving Repr, DecidableEq

/-- Output of `SummarizationProcessor.summarize` (`...enrichedEvent` plus
`summary` and `tokensUsed`). -/
structure SummarizedEventS where
  enriched : EnrichedEventS
  summary : List Char
  tokensUsed : ℕ
  deriving Repr, DecidableEq

/-- Model of `SummarizationProcessor.summarize`: on LLM success use the trimmed
response; on failure (the catch branch) fall back to the truncation summary
with `tokensUsed = 0`.  The enriched event is carried through either way, so
the event is never dropped. -/
def SummarizationProcessor.summarize
    (llmResult : Except String CompletionResponse)
    (enrichedEvent : EnrichedEventS) : SummarizedEventS :=
  match llmResult with
  | .ok response =>
    { enriched := enrichedEvent, summary := trimChars response.content,
      tokensUsed := response.tokensUsed }
  | .error _ =>
    { enriched := enrichedEvent,
      summary := SummarizationProcessor.fallbackSummary
        enrichedEvent.extractedText,
      tokensUsed := 0 }

/-- Modelled from the spec: the truncation summary read literally from
§4.5.2, "the first 200 characters cut at a word boundary with an ellipsis" —
an ellipsis is always appended. -/
def specTruncationSummary (text : List Char) : List Char :=
  (text.take 200).take (lastSpaceIdx (text.take 200)).toNat ++ ['.', '.', '.']

/-! ## Theorems for claim C6 -/

/-- C6 (amended): when the LLM call fails, `summarize` still returns the
event (never dropped, job never failed) with `tokensUsed = 0` and the
truncation fallback as summary; for texts longer than 200 characters the
fallback is exactly the spec's cut-at-word-boundary-plus-ellipsis form, texts
of at most 200 characters are returned unchanged (no ellipsis), and the
fallback never exceeds the original text plus the 3-character ellipsis. -/
theorem summarize_fallback_on_failure (e : String) (ev : EnrichedEventS) :
    (SummarizationProcessor.summarize (.error e) ev).enriched = ev
    ∧ (SummarizationProcessor.summarize (.error e) ev).tokensUsed = 0
    ∧ (SummarizationProcessor.summarize (.error e) ev).summary
        = SummarizationProcessor.fallbackSummary ev.extractedText
    ∧ (200 < ev.extractedText.length →
        (SummarizationProcessor.summarize (.error e) ev).summary
          = specTruncationSummary ev.extractedText)
    ∧ (ev.extractedText.length ≤ 200 →
        (SummarizationProcessor.summarize (.error e) ev).summary
          = ev.extractedText)
    ∧ (SummarizationProcessor.summarize (.error e) ev).summary.length
        ≤ ev.extractedText.length + 3 := by
  refine ⟨rfl, rfl, rfl, ?_, ?_, ?_⟩
  · intro hlong
    simp only [SummarizationProcessor.summarize,
      SummarizationProcessor.fallbackSummary, specTruncationSummary]
    rw [if_neg (by omega)]
  · intro hshort
    simp only [SummarizationProcessor.summarize,
      SummarizationProcessor.fallbackSummary]
    rw [if_pos hshort]
  · simp only [SummarizationProcessor.summarize,
      SummarizationProcessor.fallbackSummary]
    by_cases h : ev.extractedText.length ≤ 200
    · rw [if_pos h]; omega
    · rw [if_neg h]
      have h1 : ((ev.extractedText.take 200).take
          (lastSpaceIdx (ev.extractedText.take 200)).toNat).length ≤ 200 := by
        rw [List.length_take, List.length_take]
        omega
      rw [List.length_append]
      simp only [List.length_cons, List.length_nil]
      omega

/-- Witness for C6: a failing LLM call on the two-character text "hi". -/
theorem summarize_fallback_on_failure_witness :
    (['h', 'i'] : List Char).length ≤ 200
    ∧ (SummarizationProcessor.summarize (.error "LLM down")
        { extractedText := ['h', 'i'] }).summary = ['h', 'i'] :=
  ⟨by decide,
    (summarize_fallback_on_failure "LLM down"
      { extractedText := ['h', 'i'] }).2.2.2.2.1 (by decide)⟩

/-- Counterexample for C6 as stated: for the short text "hi" the fallback is
the text itself, not the spec's "first 200 characters cut at a word boundary
with an ellipsis" (which would end in `...`). -/
theorem summarize_fallback_short_no_ellipsis :
    (SummarizationProcessor.summarize (.error "LLM down")
      { extractedText := ['h', 'i'] }).summary = ['h', 'i']
    ∧ specTruncationSummary ['h', 'i'] = ['.', '.', '.']
    ∧ (['h', 'i'] : List Char) ≠ ['.', '.', '.'] := by
  refine ⟨rfl, by decide, by decide⟩

/-! ## Memory retrieval service (vector-store.ts, retrieval part)

`mapToRetrievedChunks`, `calculateRelevanceScores`, `rerankResults` and
`parseRankingResponse` of `MemoryRetrievalService`.  The rerank LLM call is a
parameter of type `Except`; `JSON`-level concerns do not arise. -/

/-- A retrieved chunk as assembled by `mapToRetrievedChunks`. -/
structure RetrievedChunk where
  id : String
  content : String := ""
  sourceType : String := ""
  sourceId : String := ""
  metadata : List (String × String) := []
  similarity : ℚ := 0
  importanceScore : Option ℚ := none
  relevanceScore : Option ℚ := none
  accessCount : ℕ := 0
  createdAt : ℕ := 0
  deriving Repr, DecidableEq

/-- JS `x || undefined` on an optional number: `0` becomes `undefined`. -/
def jsOrUndef (o : Option ℚ) : Option ℚ :=
  match o with
  | some x => if x = 0 then none else some x
  | none => none

/-- Model of `MemoryRetrievalService.mapToRetrievedChunks`: copy the row's columns,
with `importanceScore: result.chunk.importanceScore || undefined`. -/
def MemoryRetrievalService.mapToRetrievedChunks
    (results : List SearchResultM) : List RetrievedChunk :=
  results.map (fun result =>
    { id := result.chunk.id, content := result.chunk.content,
      sourceType := result.chunk.sourceType,
      sourceId := result.chunk.sourceId,
      metadata := result.chunk.metadata,
      similarity := result.similarity,
      importanceScore := jsOrUndef result.chunk.importanceScore,
      accessCount := result.chunk.accessCount,
      createdAt := result.chunk.createdAt })

/-- Model of `MemoryRetrievalService.calculateRelevanceScores`:
`chunk.similarity * 0.7 + (chunk.importanceScore || 0.5) * 0.3`. -/
def MemoryRetrievalService.calculateRelevanceScores
    (chunks : List RetrievedChunk) : List RetrievedChunk :=
  chunks.map (fun chunk =>
    { chunk with relevanceScore := some (chunk.similarity * (7/10) +
        jsOrQ chunk.importanceScore (1/2) * (3/10)) })

/-- Maximal digit runs of a character list (the regex `/\d+/g`);
`acc` holds the current run reversed. -/
def digitRunsAux : List Char → List Char → List (List Char)
  | [], [] => []
  | [], acc => [acc.reverse]
  | ch :: rest, acc =>
    if ch.isDigit then digitRunsAux rest (ch :: acc)
    else if acc.isEmpty then digitRunsAux rest []
    else acc.reverse :: digitRunsAux rest []

/-- JS `parseInt` of a digit run. -/
def natOfDigits (ds : List Char) : ℕ :=
  ds.foldl (fun n d => 10 * n + (d.toNat - '0'.toNat)) 0

/-- Model of `MemoryRetrievalService.parseRankingResponse`: all `/\d+/g` matches of
the response, each parsed with `parseInt`; no match gives `[]`. -/
def MemoryRetrievalService.parseRankingResponse (response : String) : List ℕ :=
  (digitRunsAux response.toList []).map natOfDigits

/-- Model of `MemoryRetrievalService.rerankResults`: rerank the first
`min(length, 10)` chunks according to the LLM's index list; indices out of
range are dropped (`filter(c => c !== undefined)`), unranked chunks of the
prefix follow in original order (via the `rankedIds` set), the rest is
appended unchanged; a failing LLM call (the catch branch) returns the input
unchanged. -/
def MemoryRetrievalService.rerankResults (llmResult : Except String String)
    (chunks : List RetrievedChunk) : List RetrievedChunk :=
  let topN := min chunks.length 10
  let toRerank := chunks.take topN
  let rest := chunks.drop topN
  match llmResult with
  | .error _ => chunks
  | .ok content =>
    let ranking := MemoryRetrievalService.parseRankingResponse content
    let reranked := ranking.filterMap (fun i => toRerank.get? i)
    let rankedIds := reranked.map (fun c => c.id)
    let unranked := toRerank.filter (fun c => !(rankedIds.contains c.id))
    reranked ++ unranked ++ rest

/-! ## Theorems for claim C8 -/

/-- Modelled from the spec: `relevanceScore = 0.7·similarity + 0.3·importance`
with importance defaulting to 0.5 only if unset. -/
def specRelevanceScore (similarity : ℚ) (importance : Option ℚ) : ℚ :=
  similarity * (7/10) + importance.getD (1/2) * (3/10)

/-- C8 (amended): for every chunk produced by the retrieval pipeline, the
relevance score is `0.7·similarity + 0.3·importance`, where the importance
defaults to 0.5 when the stored value is unset **or zero** (the JavaScript
`||` treats a stored 0 as falsy, both in `mapToRetrievedChunks` and in
`calculateRelevanceScores`). -/
theorem relevanceScore_formula (results : List SearchResultM)
    (c : RetrievedChunk)
    (hc : c ∈ MemoryRetrievalService.calculateRelevanceScores
      (MemoryRetrievalService.mapToRetrievedChunks results)) :
    ∃ r ∈ results, c.similarity = r.similarity ∧
      c.relevanceScore = some (r.similarity * (7/10) +
        (match r.chunk.importanceScore with
          | some x => if x = 0 then 1/2 else x
          | none => 1/2) * (3/10)) := by
  simp only [MemoryRetrievalService.calculateRelevanceScores,
    MemoryRetrievalService.mapToRetrievedChunks, List.map_map,
    List.mem_map] at hc
  obtain ⟨r, hr, rfl⟩ := hc
  refine ⟨r, hr, rfl, ?_⟩
  simp only [Function.comp]
  congr 1
  congr 1
  simp only [jsOrQ, jsOrUndef]
  cases r.chunk.importanceScore with
  | none => rfl
  | some x =>
    by_cases hx : x = 0
    · simp [hx]
    · simp [hx]

/-- The search result used in the C8 witness. -/
def searchResultW : SearchResultM :=
  { chunk := { id := "w", importanceScore := some (4/5) }, similarity := 9/10 }

/-- The retrieved chunk the pipeline produces for `searchResultW`. -/
def retrievedW : RetrievedChunk :=
  { id := "w", similarity := 9/10, importanceScore := some (4/5),
    relevanceScore := some (87/100) }

/-- Evaluation of the scoring pipeline on the witness input. -/
lemma retrieval_pipeline_W :
    MemoryRetrievalService.calculateRelevanceScores
      (MemoryRetrievalService.mapToRetrievedChunks [searchResultW])
      = [retrievedW] := by
  norm_num [MemoryRetrievalService.calculateRelevanceScores,
    MemoryRetrievalService.mapToRetrievedChunks, searchResultW, retrievedW,
    jsOrUndef, jsOrQ]

/-- Witness for C8: one search result with stored importance 0.8 and
similarity 0.9 scores 0.63 + 0.24 = 0.87. -/
theorem relevanceScore_formula_witness :
    ∃ r ∈ [searchResultW], retrievedW.similarity = r.similarity ∧
      retrievedW.relevanceScore = some (r.similarity * (7/10) +
        (match r.chunk.importanceScore with
          | some x => if x = 0 then 1/2 else x
          | none => 1/2) * (3/10)) :=
  relevanceScore_formula [searchResultW] retrievedW
    (by rw [retrieval_pipeline_W]; exact List.mem_singleton_self _)

/-- The row used in the C8 counterexample: stored importance exactly 0. -/
def chunkZeroImportance : KnowledgeChunk :=
  { id := "z", importanceScore := some 0 }

/-- Counterexample for C8 as stated: for a chunk whose stored importance is 0
(set, not unset), the code computes `0.7·1 + 0.3·0.5 = 0.85`, while the
claimed formula with importance defaulting only if unset gives
`0.7·1 + 0.3·0 = 0.7`. -/
theorem relevanceScore_zero_importance_counterexample :
    (MemoryRetrievalService.calculateRelevanceScores
      (MemoryRetrievalService.mapToRetrievedChunks
        [{ chunk := chunkZeroImportance, similarity := 1 }])).map
      (fun c => c.relevanceScore) = [some (17/20)]
    ∧ specRelevanceScore 1 (some 0) = 7/10
    ∧ (17/20 : ℚ) ≠ 7/10 := by
  refine ⟨?_, ?_, by norm_num⟩
  · norm_num [MemoryRetrievalService.calculateRelevanceScores,
      MemoryRetrievalService.mapToRetrievedChunks, chunkZeroImportance,
      jsOrUndef, jsOrQ]
  · norm_num [specRelevanceScore]

/-! ## Theorems for claim C7 -/

/-- Taking `take` of a list's length-clamped prefix count. -/
lemma take_min_self {α : Type} (l : List α) (n : ℕ) :
    l.take (min l.length n) = l.take n :=
  List.take_eq_take.mpr (by omega)

/-- Taking `drop` of a list's length-clamped prefix count. -/
lemma drop_min_self {α : Type} (l : List α) (n : ℕ) :
    l.drop (min l.length n) = l.drop n := by
  rcases Nat.le_total l.length n with h | h
  · rw [min_eq_left h, List.drop_eq_nil_of_le le_rfl,
      List.drop_eq_nil_of_le h]
  · rw [min_eq_right h]

/-- Looking up the indices `0, …, k−1` in order returns the `k`-prefix. -/
lemma filterMap_get?_range {α : Type} (l : List α) (k : ℕ) :
    (List.range k).filterMap (fun i => l.get? i) = l.take k := by
  induction k with
  | zero => rfl
  | succ k ih =>
    rw [List.range_succ, List.filterMap_append, ih, List.take_succ]
    have hfun : (fun i => l.get? i) = (fun i => l[i]?) := by
      funext i
      exact List.get?_eq_getElem? l i
    rw [hfun]
    cases h : l[k]? <;> simp [List.filterMap_cons, h]

/-- Filtering out the elements whose image is among the images of the
`k`-prefix leaves the `k`-suffix, when images are distinct. -/
lemma filter_not_mem_take_map {α : Type} [DecidableEq α]
    (l : List α) (f : α → String) (k : ℕ) (hnd : (l.map f).Nodup) :
    l.filter (fun c => !(((l.take k).map f).contains (f c))) = l.drop k := by
  have hdisj : List.Disjoint ((l.take k).map f) ((l.drop k).map f) := by
    have h : ((l.take k).map f ++ (l.drop k).map f).Nodup := by
      rw [← List.map_append, List.take_append_drop]
      exact hnd
    exact (List.nodup_append.mp h).2.2
  have key : l.filter (fun c => !(((l.take k).map f).contains (f c)))
      = (l.take k).filter (fun c => !(((l.take k).map f).contains (f c)))
        ++ (l.drop k).filter (fun c => !(((l.take k).map f).contains (f c))) := by
    rw [← List.filter_append, List.take_append_drop]
  have h1 : (l.take k).filter
      (fun c => !(((l.take k).map f).contains (f c))) = [] := by
    apply List.filter_eq_nil_iff.mpr
    intro c hc
    simp only [Bool.not_eq_true', Bool.not_eq_false]
    exact List.elem_iff.mpr (List.mem_map_of_mem f hc)
  have h2 : (l.drop k).filter
      (fun c => !(((l.take k).map f).contains (f c))) = l.drop k := by
    apply List.filter_eq_self.mpr
    intro c hc
    simp only [Bool.not_eq_true']
    rw [← Bool.not_eq_true]
    intro hmem
    exact hdisj (List.elem_iff.mp hmem) (List.mem_map_of_mem f hc)
  rw [key, h1, h2, List.nil_append]

/-- C7: the rerank contract of `MemoryRetrievalService.rerankResults` (ids
assumed distinct, as they are database primary keys).  (1) A failing rerank
LLM call returns the pre-rerank ordering.  (2) A malformed response (no
parsed indices) returns the pre-rerank ordering.  (3) A degenerate response
listing `0,…,k−1` returns exactly the pre-rerank ordering (in particular the
top-k prefix).  (4) In general the result is the chunks at the parsed
indices in that order, then the unmatched chunks of the first 10 in original
order, then the hits from position 11 on unchanged. -/
theorem rerankResults_contract (chunks : List RetrievedChunk)
    (hnd : (chunks.map (fun c => c.id)).Nodup) :
    (∀ e : String,
      MemoryRetrievalService.rerankResults (.error e) chunks = chunks)
    ∧ (∀ resp : String,
        MemoryRetrievalService.parseRankingResponse resp = [] →
        MemoryRetrievalService.rerankResults (.ok resp) chunks = chunks)
    ∧ (∀ resp : String, ∀ k : ℕ,
        MemoryRetrievalService.parseRankingResponse resp = List.range k →
        MemoryRetrievalService.rerankResults (.ok resp) chunks = chunks)
    ∧ (∀ resp : String,
        MemoryRetrievalService.rerankResults (.ok resp) chunks =
          (MemoryRetrievalService.parseRankingResponse resp).filterMap
            (fun i => (chunks.take 10).get? i)
          ++ (chunks.take 10).filter (fun c =>
              !(decide (c ∈ (MemoryRetrievalService.parseRankingResponse
                resp).filterMap (fun i => (chunks.take 10).get? i))))
          ++ chunks.drop 10) := by
  have hnd10 : ((chunks.take 10).map (fun c => c.id)).Nodup := by
    rw [List.map_take]
    exact hnd.sublist (List.take_sublist _ _)
  have hgen : ∀ resp : String,
      MemoryRetrievalService.rerankResults (.ok resp) chunks =
        (MemoryRetrievalService.parseRankingResponse resp).filterMap
          (fun i => (chunks.take 10).get? i)
        ++ (chunks.take 10).filter (fun c =>
            !(decide (c ∈ (MemoryRetrievalService.parseRankingResponse
              resp).filterMap (fun i => (chunks.take 10).get? i))))
        ++ chunks.drop 10 := by
    intro resp
    simp only [MemoryRetrievalService.rerankResults, take_min_self,
      drop_min_self]
    congr 1
    congr 1
    apply List.filter_congr
    intro c hc
    congr 1
    have hsub : ∀ x ∈ (MemoryRetrievalService.parseRankingResponse
        resp).filterMap (fun i => (chunks.take 10).get? i),
        x ∈ chunks.take 10 := by
      intro x hx
      obtain ⟨i, _, hgi⟩ := List.mem_filterMap.mp hx
      exact List.get?_mem hgi
    rw [Bool.eq_iff_iff, List.elem_iff, decide_eq_true_eq]
    constructor
    · intro hmem
      obtain ⟨x, hx, hxid⟩ := List.mem_map.mp hmem
      exact (List.inj_on_of_nodup_map hnd10 (hsub x hx) hc hxid) ▸ hx
    · intro hmem
      exact List.mem_map_of_mem _ hmem
  refine ⟨fun e => rfl, ?_, ?_, hgen⟩
  · intro resp hparse
    simp only [MemoryRetrievalService.rerankResults, hparse,
      List.filterMap_nil, List.map_nil, take_min_self, drop_min_self]
    simp only [List.contains_nil, Bool.not_false, List.filter_true,
      List.nil_append, List.take_append_drop]
  · intro resp k hparse
    simp only [MemoryRetrievalService.rerankResults, hparse, take_min_self,
      drop_min_self]
    rw [filterMap_get?_range]
    rw [filter_not_mem_take_map (chunks.take 10) (fun c => c.id) k hnd10]
    rw [List.take_append_drop, List.take_append_drop]

/-- Chunks used in the C7 witness. -/
def chunkR1 : RetrievedChunk := { id := "r1" }

/-- Second chunk used in the C7 witness. -/
def chunkR2 : RetrievedChunk := { id := "r2" }

/-- Witness for C7: on a two-chunk list with distinct ids, a failing call, a
malformed response ("not a list") and a degenerate response ("0,1") each
return the pre-rerank ordering. -/
theorem rerankResults_contract_witness :
    MemoryRetrievalService.rerankResults (.error "boom") [chunkR1, chunkR2]
      = [chunkR1, chunkR2]
    ∧ MemoryRetrievalService.rerankResults (.ok "not a list")
        [chunkR1, chunkR2] = [chunkR1, chunkR2]
    ∧ MemoryRetrievalService.rerankResults (.ok "0,1") [chunkR1, chunkR2]
      = [chunkR1, chunkR2] := by
  have h := rerankResults_contract [chunkR1, chunkR2] (by decide)
  exact ⟨h.1 "boom", h.2.1 "not a list" (by decide),
    h.2.2.1 "0,1" 2 (by decide)⟩

/-! ## Context builder (agents/context-builder.ts)

`Number.toFixed(1)` (used only to print the relevance percentage) is an
external JS builtin and is a parameter `toFixed1`; only the produced string's
length can matter.  The retrieval result is a parameter `retrieved`: the
builder requests `topK = 30`, so the vector store's `LIMIT` guarantees at
most 30 chunks. -/

/-- JavaScript truthiness of an optional boolean option. -/
def truthyB : Option Bool → Bool
  | none => false
  | some b => b

/-- Model of `ContextBuilder.estimateTokens`: `Math.ceil(text.length / 4)`. -/
def ContextBuilder.estimateTokens (text : String) : ℕ :=
  (text.length + 3) / 4

/-- The `DEFAULT_SYSTEM_PROMPT` instance constant. -/
def ContextBuilder.DEFAULT_SYSTEM_PROMPT : String :=
  "You are MateAI, an intelligent assistant with access to your team\x27s collective knowledge.\n\nYou have access to relevant information from your team\x27s conversations, documents, and tools. Use this context to provide accurate, helpful responses.\n\nWhen answering:\n- Reference specific information from the context when relevant\n- Acknowledge when you don\x27t have enough information\n- Provide actionable insights when possible\n- Cite sources when referencing specific information"

/-- Options of `ContextBuilder.buildContext`. -/
structure ContextOptions where
  maxTokens : Option ℕ := none
  includeSystemPrompt : Option Bool := none
  systemPrompt : Option String := none
  includeHistory : Option Bool := none
  maxHistory : Option ℕ := none
  relevanceThreshold : Option ℚ := none

/-- A message of the conversation history. -/
structure ConversationMessage where
  role : String
  content : String
  timestamp : ℕ := 0
  deriving Repr, DecidableEq

/-- The context record `buildContext` returns (metadata fields inlined). -/
structure AgentContext where
  systemPrompt : String
  knowledgeContext : String
  conversationHistory : List ConversationMessage
  chunksUsed : ℕ
  totalTokens : ℕ
  sources : List String

/-- Model of `ContextBuilder.formatChunk`: the `[Source: … | Relevance: …%]` line, the
content, and a metadata line when non-empty, joined with newlines. -/
def ContextBuilder.formatChunk (toFixed1 : ℚ → String)
    (chunk : RetrievedChunk) : String :=
  let sourceLine := "[Source: " ++ chunk.sourceType ++ " | Relevance: "
    ++ toFixed1 (jsOrQ chunk.relevanceScore chunk.similarity * 100) ++ "%]"
  let metadataStr := joinSep ", "
    ((chunk.metadata.filter (fun kv => !(kv.1.startsWith "_"))).map
      (fun kv => kv.1 ++ ": " ++ kv.2))
  if metadataStr ≠ "" then
    joinSep "\n" [sourceLine, chunk.content, "\nMetadata: " ++ metadataStr]
  else
    joinSep "\n" [sourceLine, chunk.content]

/-- Estimated cost of one formatted chunk. -/
def ContextBuilder.chunkCost (toFixed1 : ℚ → String)
    (chunk : RetrievedChunk) : ℕ :=
  ContextBuilder.estimateTokens (ContextBuilder.formatChunk toFixed1 chunk)

/-- The loop of `ContextBuilder.selectChunks`: walk the chunks in retrieved
order, `break` on the first whose addition would exceed the budget, else add
its formatted text and cost. -/
def ContextBuilder.selectChunksGo (toFixed1 : ℚ → String) (maxTokens : ℤ) :
    List RetrievedChunk → ℕ → List RetrievedChunk × List String
  | [], _ => ([], [])
  | chunk :: rest, usedTokens =>
    let chunkTokens := ContextBuilder.chunkCost toFixed1 chunk
    if (usedTokens + chunkTokens : ℤ) > maxTokens then ([], [])
    else
      let r := ContextBuilder.selectChunksGo toFixed1 maxTokens rest
        (usedTokens + chunkTokens)
      (chunk :: r.1, ContextBuilder.formatChunk toFixed1 chunk :: r.2)

/-- Model of `ContextBuilder.selectChunks`: greedy selection starting from 0 used
tokens, knowledge context joined with `\n\n---\n\n`. -/
def ContextBuilder.selectChunks (toFixed1 : ℚ → String)
    (chunks : List RetrievedChunk) (maxTokens : ℤ) :
    List RetrievedChunk × String :=
  let r := ContextBuilder.selectChunksGo toFixed1 maxTokens chunks 0
  (r.1, joinSep "\n\n---\n\n" r.2)

/-- Model of `ContextBuilder.buildContext`.  `options.maxTokens || 8000`,
`options.systemPrompt || DEFAULT_SYSTEM_PROMPT`; when
`options.includeHistory && conversationHistory.length > 0`, keep
`slice(-maxHistory)` with `options.maxHistory || 10` and add its token
estimate; reserve 500 tokens for formatting; greedily select retrieved
chunks; `totalTokens` is used tokens plus the knowledge context estimate. -/
def ContextBuilder.buildContext (toFixed1 : ℚ → String)
    (retrieved : List RetrievedChunk) (options : ContextOptions)
    (conversationHistory : List ConversationMessage) : AgentContext :=
  let maxTokens := jsOrNat options.maxTokens 8000
  let systemPrompt := jsOrStr options.systemPrompt
    ContextBuilder.DEFAULT_SYSTEM_PROMPT
  let filteredHistory :=
    if truthyB options.includeHistory && (conversationHistory.length > 0 : Bool)
    then conversationHistory.drop
      (conversationHistory.length - jsOrNat options.maxHistory 10)
    else []
  let usedTokens := ContextBuilder.estimateTokens systemPrompt
    + (filteredHistory.map
        (fun msg => ContextBuilder.estimateTokens msg.content)).sum
  let remainingTokens : ℤ := (maxTokens : ℤ) - usedTokens - 500
  let r := ContextBuilder.selectChunks toFixed1 retrieved remainingTokens
  { systemPrompt := systemPrompt,
    knowledgeContext := r.2,
    conversationHistory := filteredHistory,
    chunksUsed := r.1.length,
    totalTokens := usedTokens + ContextBuilder.estimateTokens r.2,
    sources := (r.1.map (fun c => c.sourceType)).eraseDups }

/-! ## Theorems for claim C5 -/

/-- Ceiling-division token estimation is subadditive. -/
lemma estimateTokens_append (a b : String) :
    ContextBuilder.estimateTokens (a ++ b)
      ≤ ContextBuilder.estimateTokens a + ContextBuilder.estimateTokens b := by
  simp only [ContextBuilder.estimateTokens, String.length_append]
  omega

/-- The `\n\n---\n\n` separators cost at most 2 tokens each. -/
lemma estimateTokens_joinSep (parts : List String) :
    ContextBuilder.estimateTokens (joinSep "\n\n---\n\n" parts)
      ≤ (parts.map ContextBuilder.estimateTokens).sum + 2 * parts.length := by
  induction parts with
  | nil => simp [joinSep, ContextBuilder.estimateTokens]
  | cons p ps ih =>
    cases ps with
    | nil => simp [joinSep]
    | cons q qs =>
      show ContextBuilder.estimateTokens (p ++ "\n\n---\n\n"
        ++ joinSep "\n\n---\n\n" (q :: qs)) ≤ _
      have h1 := estimateTokens_append (p ++ "\n\n---\n\n")
        (joinSep "\n\n---\n\n" (q :: qs))
      have h2 := estimateTokens_append p "\n\n---\n\n"
      have h3 : ContextBuilder.estimateTokens "\n\n---\n\n" = 2 := by decide
      have h4 := ih
      simp only [List.map_cons, List.sum_cons, List.length_cons] at *
      omega

/-- The selection loop only ever appends formatted selected chunks. -/
lemma selectChunksGo_snd (toFixed1 : ℚ → String) (maxTokens : ℤ) :
    ∀ (chunks : List RetrievedChunk) (used : ℕ),
      (ContextBuilder.selectChunksGo toFixed1 maxTokens chunks used).2
        = (ContextBuilder.selectChunksGo toFixed1 maxTokens chunks used).1.map
            (ContextBuilder.formatChunk toFixed1) := by
  intro chunks
  induction chunks with
  | nil => intro used; rfl
  | cons c rest ih =>
    intro used
    simp only [ContextBuilder.selectChunksGo]
    split_ifs with h
    · rfl
    · simp only [List.map_cons]
      rw [← ih (used + ContextBuilder.chunkCost toFixed1 c)]

/-- The selection loop returns a prefix of its input. -/
lemma selectChunksGo_leading (toFixed1 : ℚ → String) (maxTokens : ℤ) :
    ∀ (chunks : List RetrievedChunk) (used : ℕ),
      ∃ t, chunks
        = (ContextBuilder.selectChunksGo toFixed1 maxTokens chunks used).1 ++ t := by
  intro chunks
  induction chunks with
  | nil => intro used; exact ⟨[], rfl⟩
  | cons c rest ih =>
    intro used
    simp only [ContextBuilder.selectChunksGo]
    split_ifs with h
    · exact ⟨c :: rest, rfl⟩
    · obtain ⟨t, ht⟩ := ih (used + ContextBuilder.chunkCost toFixed1 c)
      refine ⟨t, ?_⟩
      simp only [List.cons_append, List.cons.injEq, true_and]
      exact ht

/-- The selection loop respects the budget: the total estimated cost of the
selected formatted chunks plus the tokens already used stays below the
budget (or nothing was selected and the bound is the used tokens). -/
lemma selectChunksGo_budget (toFixed1 : ℚ → String) (maxTokens : ℤ) :
    ∀ (chunks : List RetrievedChunk) (used : ℕ),
      ((((ContextBuilder.selectChunksGo toFixed1 maxTokens chunks used).2.map
        ContextBuilder.estimateTokens).sum : ℤ) + (used : ℤ))
        ≤ max maxTokens (used : ℤ) := by
  intro chunks
  induction chunks with
  | nil =>
    intro used
    simp only [ContextBuilder.selectChunksGo, List.map_nil, List.sum_nil,
      Nat.cast_zero, zero_add]
    exact le_max_right _ _
  | cons c rest ih =>
    intro used
    simp only [ContextBuilder.selectChunksGo]
    split_ifs with h
    · simp only [List.map_nil, List.sum_nil, Nat.cast_zero, zero_add]
      exact le_max_right _ _
    · push_neg at h
      have hc := ih (used + ContextBuilder.chunkCost toFixed1 c)
      have hcast : ((used + ContextBuilder.chunkCost toFixed1 c : ℕ) : ℤ)
          ≤ maxTokens := by push_cast; linarith
      rw [max_eq_left hcast] at hc
      have hle : maxTokens ≤ max maxTokens (used : ℤ) := le_max_left _ _
      have hch : ContextBuilder.estimateTokens
          (ContextBuilder.formatChunk toFixed1 c)
          = ContextBuilder.chunkCost toFixed1 c := rfl
      simp only [List.map_cons, List.sum_cons, hch]
      push_cast at hc ⊢
      linarith

/-- The selection loop stops exactly before the first chunk whose addition
would exceed the budget. -/
lemma selectChunksGo_stop (toFixed1 : ℚ → String) (maxTokens : ℤ) :
    ∀ (chunks : List RetrievedChunk) (used : ℕ) (c : RetrievedChunk),
      chunks.get? (ContextBuilder.selectChunksGo toFixed1 maxTokens
        chunks used).1.length = some c →
      ((used : ℤ)
        + (((ContextBuilder.selectChunksGo toFixed1 maxTokens
            chunks used).1.map (ContextBuilder.chunkCost toFixed1)).sum : ℤ)
        + (ContextBuilder.chunkCost toFixed1 c : ℤ) > maxTokens) := by
  intro chunks
  induction chunks with
  | nil => intro used c hc; cases hc
  | cons a rest ih =>
    intro used c hc
    simp only [ContextBuilder.selectChunksGo] at hc ⊢
    split_ifs at hc ⊢ with h
    · simp only [List.length_nil, List.get?_cons_zero, Option.some.injEq] at hc
      subst hc
      simpa using h
    · simp only [List.length_cons, List.get?_cons_succ] at hc
      have := ih (used + ContextBuilder.chunkCost toFixed1 a) c hc
      simp only [List.map_cons, List.sum_cons]
      push_cast at this ⊢
      linarith

/-- A non-negative budget bounds the estimate of the joined context. -/
lemma selectChunks_total_est (toFixed1 : ℚ → String)
    (chunks : List RetrievedChunk) (budget : ℤ) (hb : 0 ≤ budget)
    (hl : chunks.length ≤ 30) :
    (ContextBuilder.estimateTokens
      (ContextBuilder.selectChunks toFixed1 chunks budget).2 : ℤ)
      ≤ budget + 60 := by
  have hsnd := selectChunksGo_snd toFixed1 budget chunks 0
  have hbudget := selectChunksGo_budget toFixed1 budget chunks 0
  obtain ⟨t, ht⟩ := selectChunksGo_leading toFixed1 budget chunks 0
  have hlen1 : (ContextBuilder.selectChunksGo toFixed1 budget
      chunks 0).1.length ≤ 30 := by
    have := congrArg List.length ht
    rw [List.length_append] at this
    omega
  have hlen2 : (ContextBuilder.selectChunksGo toFixed1 budget
      chunks 0).2.length ≤ 30 := by
    rw [hsnd, List.length_map]
    exact hlen1
  have hjoin := estimateTokens_joinSep
    (ContextBuilder.selectChunksGo toFixed1 budget chunks 0).2
  rw [Nat.cast_zero, add_zero, max_eq_left hb] at hbudget
  simp only [ContextBuilder.selectChunks]
  push_cast at hbudget ⊢
  have hj : (ContextBuilder.estimateTokens (joinSep "\n\n---\n\n"
      (ContextBuilder.selectChunksGo toFixed1 budget chunks 0).2) : ℤ)
      ≤ (((ContextBuilder.selectChunksGo toFixed1 budget chunks 0).2.map
          ContextBuilder.estimateTokens).sum : ℤ)
        + 2 * ((ContextBuilder.selectChunksGo toFixed1 budget
            chunks 0).2.length : ℤ) := by
    exact_mod_cast hjoin
  have hlen2z : ((ContextBuilder.selectChunksGo toFixed1 budget
      chunks 0).2.length : ℤ) ≤ 30 := by exact_mod_cast hlen2
  linarith

/-- C5 (amended): whenever the system prompt plus the included history plus
the 500-token formatting reserve fit in `maxTokens` (default 8000), the built
context's estimated token total (system prompt + included history +
knowledge context, each estimated as ⌈chars/4⌉) is at most `maxTokens`;
`totalTokens` is exactly that sum; chunks are selected greedily in retrieved
order as a prefix, stopping before the first chunk whose addition would
exceed the remaining budget.  Without the fit hypothesis the bound fails
(the builder never trims the system prompt or the history). -/
theorem buildContext_token_budget (toFixed1 : ℚ → String)
    (retrieved : List RetrievedChunk) (options : ContextOptions)
    (history : List ConversationMessage)
    (hlen : retrieved.length ≤ 30)
    (hfit : ContextBuilder.estimateTokens
        (ContextBuilder.buildContext toFixed1 retrieved options
          history).systemPrompt
      + (((ContextBuilder.buildContext toFixed1 retrieved options
          history).conversationHistory).map
          (fun msg => ContextBuilder.estimateTokens msg.content)).sum
      + 500 ≤ jsOrNat options.maxTokens 8000) :
    (ContextBuilder.buildContext toFixed1 retrieved options
        history).totalTokens ≤ jsOrNat options.maxTokens 8000
    ∧ (ContextBuilder.buildContext toFixed1 retrieved options
        history).totalTokens
      = ContextBuilder.estimateTokens
          (ContextBuilder.buildContext toFixed1 retrieved options
            history).systemPrompt
        + (((ContextBuilder.buildContext toFixed1 retrieved options
            history).conversationHistory).map
            (fun msg => ContextBuilder.estimateTokens msg.content)).sum
        + ContextBuilder.estimateTokens
            (ContextBuilder.buildContext toFixed1 retrieved options
              history).knowledgeContext
    ∧ (∀ (chunks : List RetrievedChunk) (budget : ℤ),
        ∃ t, chunks
          = (ContextBuilder.selectChunks toFixed1 chunks budget).1 ++ t)
    ∧ (∀ (chunks : List RetrievedChunk) (budget : ℤ) (c : RetrievedChunk),
        chunks.get? (ContextBuilder.selectChunks toFixed1
          chunks budget).1.length = some c →
        ((((ContextBuilder.selectChunks toFixed1 chunks budget).1.map
            (ContextBuilder.chunkCost toFixed1)).sum : ℤ)
          + (ContextBuilder.chunkCost toFixed1 c : ℤ) > budget)) := by
  refine ⟨?_, ?_, ?_, ?_⟩
  · simp only [ContextBuilder.buildContext] at hfit ⊢
    set U := ContextBuilder.estimateTokens
      (jsOrStr options.systemPrompt ContextBuilder.DEFAULT_SYSTEM_PROMPT)
      + ((if truthyB options.includeHistory
            && (decide (history.length > 0)) then
          history.drop (history.length - jsOrNat options.maxHistory 10)
        else []).map
          (fun msg => ContextBuilder.estimateTokens msg.content)).sum with hU
    have hb : (0 : ℤ) ≤ (jsOrNat options.maxTokens 8000 : ℤ)
        - (U : ℤ) - 500 := by
      have : (U : ℤ) + 500 ≤ (jsOrNat options.maxTokens 8000 : ℤ) := by
        exact_mod_cast hfit
      linarith
    have hest := selectChunks_total_est toFixed1 retrieved
      ((jsOrNat options.maxTokens 8000 : ℤ) - (U : ℤ) - 500) hb hlen
    have : (U : ℤ) + (ContextBuilder.estimateTokens
        (ContextBuilder.selectChunks toFixed1 retrieved
          ((jsOrNat options.maxTokens 8000 : ℤ) - (U : ℤ) - 500)).2 : ℤ)
        ≤ (jsOrNat options.maxTokens 8000 : ℤ) := by linarith
    exact_mod_cast this
  · rfl
  · intro chunks budget
    exact selectChunksGo_leading toFixed1 budget chunks 0
  · intro chunks budget c hc
    simp only [ContextBuilder.selectChunks] at hc ⊢
    have := selectChunksGo_stop toFixed1 budget chunks 0 c hc
    push_cast at this ⊢
    linarith

set_option maxRecDepth 10000 in
/-- Witness for C5: empty retrieval, default options, empty history. -/
theorem buildContext_token_budget_witness :
    (ContextBuilder.buildContext (fun _ => "") [] {} []).totalTokens ≤ 8000 :=
  (buildContext_token_budget (fun _ => "") [] {} [] (by decide) (by decide)).1

set_option maxRecDepth 10000 in
/-- Counterexample for C5 as stated: with `maxTokens = 20` and the default
system prompt, the returned context's estimated token total already exceeds
the budget — the builder never trims the system prompt. -/
theorem buildContext_exceeds_budget :
    jsOrNat ({ maxTokens := some 20 } : ContextOptions).maxTokens 8000 = 20
    ∧ 20 < (ContextBuilder.buildContext (fun _ => "") []
        { maxTokens := some 20 } []).totalTokens := by
  exact ⟨rfl, by decide⟩

/-! ## Orchestrator agent (agents/orchestrator-agent.ts)

The LLM is a parameter `llm` mapping the conversation so far to a chat
response (any sequence of responses is realizable), the tool registry a
parameter `execute` returning the serialized result string appended to the
transcript. -/

/-- One tool call of an LLM chat response. -/
structure LLMToolCall where
  id : String
  name : String
  input : String := ""
  deriving Repr, DecidableEq

/-- One `tool_use` content block of an assistant message. -/
structure ToolUseBlock where
  id : String
  name : String
  input : String := ""
  deriving Repr, DecidableEq

/-- Content of a chat message: plain text or `tool_use` blocks. -/
inductive MsgContent
  | text (s : String)
  | blocks (bs : List ToolUseBlock)
  deriving Repr, DecidableEq

/-- A chat message; tool messages carry `tool_call_id`. -/
structure ChatMessage where
  role : String
  content : MsgContent
  tool_call_id : Option String := none
  deriving Repr, DecidableEq

/-- An LLM chat response. -/
structure ChatResponse where
  content : String
  toolCalls : List LLMToolCall := []
  tokensUsed : ℕ := 0
  deriving Repr, DecidableEq

/-- The string returned when the iteration cap is reached (the code's exact
literal, capitalized and with a trailing period). -/
def iterationLimitSentinel : String :=
  "Unable to complete request within iteration limit."

/-- Result of the agent loop, with the trace of message lists passed to each
`llm.chat` call. -/
structure LoopResult where
  content : String
  iterations : ℕ
  llmCalls : List (List ChatMessage)
  messages : List ChatMessage
  deriving Repr, DecidableEq

/-- The assistant message holding a response's `tool_use` blocks. -/
def assistantBlocksMsg (tcs : List LLMToolCall) : ChatMessage :=
  { role := "assistant",
    content := .blocks (tcs.map
      (fun tc => { id := tc.id, name := tc.name, input := tc.input })) }

/-- The tool message answering one tool call: the call's id and the
serialized result of `toolRegistry.execute`. -/
def toolResultMsg (execute : LLMToolCall → String)
    (tc : LLMToolCall) : ChatMessage :=
  { role := "tool", content := .text (execute tc),
    tool_call_id := some tc.id }

/-- The `while iterations < maxIterations` loop of
`OrchestratorAgent.executeAgentLoop`, with `remaining`
(`maxIterations − iterations`) as fuel: call the LLM; a tool-free response is
terminal; otherwise append one assistant message holding the `tool_use`
blocks, then one tool message per tool call (in order), and continue. -/
def OrchestratorAgent.loopGo (llm : List ChatMessage → ChatResponse)
    (execute : LLMToolCall → String) :
    ℕ → List ChatMessage → ℕ → List (List ChatMessage) → LoopResult
  | 0, messages, iterations, calls =>
    { content := iterationLimitSentinel, iterations := iterations,
      llmCalls := calls, messages := messages }
  | remaining + 1, messages, iterations, calls =>
    let response := llm messages
    if response.toolCalls.isEmpty then
      { content := response.content, iterations := iterations + 1,
        llmCalls := calls ++ [messages], messages := messages }
    else
      let messages2 := messages ++ [assistantBlocksMsg response.toolCalls]
        ++ response.toolCalls.map (toolResultMsg execute)
      OrchestratorAgent.loopGo llm execute remaining messages2
        (iterations + 1) (calls ++ [messages])

/-- The initial conversation: system message, history, current query. -/
def OrchestratorAgent.buildMessages (systemMessage : String)
    (history : List ConversationMessage) (query : String) :
    List ChatMessage :=
  ({ role := "system", content := .text systemMessage } : ChatMessage)
    :: (history.map (fun msg =>
        ({ role := msg.role, content := .text msg.content } : ChatMessage))
      ++ [{ role := "user", content := .text query }])

/-- Model of `OrchestratorAgent.executeAgentLoop`. -/
def OrchestratorAgent.executeAgentLoop
    (llm : List ChatMessage → ChatResponse) (execute : LLMToolCall → String)
    (maxIterations : ℕ) (systemMessage : String)
    (history : List ConversationMessage) (query : String) : LoopResult :=
  OrchestratorAgent.loopGo llm execute maxIterations
    (OrchestratorAgent.buildMessages systemMessage history query) 0 []

/-- Number of `tool_use` blocks with a given id inside one message. -/
def blockUses (i : String) (m : ChatMessage) : ℕ :=
  match m.content with
  | .blocks bs => bs.countP (fun b => b.id == i)
  | .text _ => 0

/-- Number of `tool_use` blocks with a given id in a conversation. -/
def toolUseCount (msgs : List ChatMessage) (i : String) : ℕ :=
  (msgs.map (blockUses i)).sum

/-- Number of tool-result messages with a given `tool_call_id`. -/
def toolResultCount (msgs : List ChatMessage) (i : String) : ℕ :=
  msgs.countP (fun m => m.tool_call_id == some i)

/-- A conversation is balanced when every id has exactly as many tool-result
messages as `tool_use` blocks. -/
def balanced (msgs : List ChatMessage) : Prop :=
  ∀ i : String, toolUseCount msgs i = toolResultCount msgs i

/-- Appending one iteration's assistant-blocks message and its tool-result
messages keeps the conversation balanced. -/
lemma balanced_step (messages : List ChatMessage)
    (tcs : List LLMToolCall) (execute : LLMToolCall → String)
    (hbal : balanced messages) :
    balanced (messages ++ [assistantBlocksMsg tcs]
      ++ tcs.map (toolResultMsg execute)) := by
  intro i
  simp only [toolUseCount, toolResultCount, List.map_append, List.sum_append,
    List.countP_append]
  have h1 : toolUseCount messages i = toolResultCount messages i := hbal i
  simp only [toolUseCount, toolResultCount] at h1
  have h2 : (([assistantBlocksMsg tcs] : List ChatMessage).map
      (blockUses i)).sum = tcs.countP (fun tc => tc.id == i) := by
    simp only [List.map_cons, List.map_nil, List.sum_cons, List.sum_nil,
      assistantBlocksMsg, blockUses, List.countP_map, add_zero]
    exact List.countP_congr (fun tc _ => Iff.rfl)
  have h3 : ((tcs.map (toolResultMsg execute)).map (blockUses i)).sum = 0 := by
    rw [List.map_map]
    apply List.sum_eq_zero
    intro x hx
    obtain ⟨tc, _, rfl⟩ := List.mem_map.mp hx
    rfl
  have h4 : ([assistantBlocksMsg tcs] : List ChatMessage).countP
      (fun m => m.tool_call_id == some i) = 0 := rfl
  have h5 : (tcs.map (toolResultMsg execute)).countP
      (fun m => m.tool_call_id == some i)
      = tcs.countP (fun tc => tc.id == i) := by
    rw [List.countP_map]
    apply List.countP_congr
    intro tc _
    simp [toolResultMsg, Function.comp]
  rw [h2, h3, h4, h5]
  omega

/-- The initial conversation is balanced (no blocks, no tool ids). -/
lemma buildMessages_balanced (systemMessage : String)
    (history : List ConversationMessage) (query : String) :
    balanced (OrchestratorAgent.buildMessages systemMessage history query) := by
  intro i
  have h1 : ∀ m ∈ OrchestratorAgent.buildMessages systemMessage history query,
      blockUses i m = 0 ∧ (m.tool_call_id == some i) = false := by
    intro m hm
    simp only [OrchestratorAgent.buildMessages, List.mem_cons,
      List.mem_append, List.mem_map, List.mem_singleton] at hm
    rcases hm with rfl | ⟨msg, _, rfl⟩ | rfl | hfalse
    · exact ⟨rfl, rfl⟩
    · exact ⟨rfl, rfl⟩
    · exact ⟨rfl, rfl⟩
    · cases hfalse
  simp only [toolUseCount, toolResultCount]
  rw [List.sum_eq_zero, List.countP_eq_zero.mpr]
  · intro m hm
    rw [(h1 m hm).2]
    simp
  · intro x hx
    obtain ⟨m, hm, rfl⟩ := List.mem_map.mp hx
    exact (h1 m hm).1

/-- Invariant of the agent loop: the iteration count grows by at most the
fuel, every traced LLM call and the final transcript are balanced, and the
result is the text of a tool-free response produced on a traced call, or the
iteration-limit sentinel. -/
lemma loopGo_spec (llm : List ChatMessage → ChatResponse)
    (execute : LLMToolCall → String) :
    ∀ (remaining : ℕ) (messages : List ChatMessage) (iterations : ℕ)
      (calls : List (List ChatMessage)),
      balanced messages →
      (∀ ms ∈ calls, balanced ms) →
      (OrchestratorAgent.loopGo llm execute remaining messages iterations
          calls).iterations ≤ iterations + remaining
      ∧ (∀ ms ∈ (OrchestratorAgent.loopGo llm execute remaining messages
          iterations calls).llmCalls, balanced ms)
      ∧ balanced (OrchestratorAgent.loopGo llm execute remaining messages
          iterations calls).messages
      ∧ ((OrchestratorAgent.loopGo llm execute remaining messages iterations
            calls).content = iterationLimitSentinel
          ∨ ∃ ms ∈ (OrchestratorAgent.loopGo llm execute remaining messages
              iterations calls).llmCalls,
              (llm ms).toolCalls = []
              ∧ (OrchestratorAgent.loopGo llm execute remaining messages
                  iterations calls).content = (llm ms).content) := by
  intro remaining
  induction remaining with
  | zero =>
    intro messages iterations calls hbal hcalls
    exact ⟨le_rfl, hcalls, hbal, Or.inl rfl⟩
  | succ r ih =>
    intro messages iterations calls hbal hcalls
    simp only [OrchestratorAgent.loopGo]
    split_ifs with h
    · refine ⟨by dsimp only; omega, ?_, hbal, ?_⟩
      · intro ms hms
        rcases List.mem_append.mp hms with hms | hms
        · exact hcalls ms hms
        · rw [List.mem_singleton.mp hms]
          exact hbal
      · right
        refine ⟨messages,
          List.mem_append_right _ (List.mem_singleton_self _), ?_, rfl⟩
        exact List.isEmpty_iff.mp h
    · have hbal2 : balanced (messages
          ++ [assistantBlocksMsg (llm messages).toolCalls]
          ++ (llm messages).toolCalls.map (toolResultMsg execute)) :=
        balanced_step messages (llm messages).toolCalls execute hbal
      have hcalls2 : ∀ ms ∈ calls ++ [messages], balanced ms := by
        intro ms hms
        rcases List.mem_append.mp hms with hms | hms
        · exact hcalls ms hms
        · rw [List.mem_singleton.mp hms]
          exact hbal
      obtain ⟨h1, h2, h3, h4⟩ := ih _ (iterations + 1) (calls ++ [messages])
        hbal2 hcalls2
      exact ⟨by omega, h2, h3, h4⟩

/-- C4 (amended): for every query, history and LLM behavior the agent loop
terminates in at most `maxIterations` iterations; when some traced LLM call
returned no tool calls the loop returns that response's text, otherwise it
returns the iteration-limit sentinel, whose exact literal is
`"Unable to complete request within iteration limit."` (capitalized, with a
trailing period); and on every LLM call (and in the final transcript) each
`tool_use` block id has exactly as many `tool_result` messages as blocks. -/
theorem agentLoop_termination_and_tool_results
    (llm : List ChatMessage → ChatResponse) (execute : LLMToolCall → String)
    (maxIterations : ℕ) (systemMessage query : String)
    (history : List ConversationMessage) :
    (OrchestratorAgent.executeAgentLoop llm execute maxIterations
        systemMessage history query).iterations ≤ maxIterations
    ∧ (∀ ms ∈ (OrchestratorAgent.executeAgentLoop llm execute maxIterations
        systemMessage history query).llmCalls, ∀ i,
        toolUseCount ms i = toolResultCount ms i)
    ∧ (∀ i, toolUseCount (OrchestratorAgent.executeAgentLoop llm execute
          maxIterations systemMessage history query).messages i
        = toolResultCount (OrchestratorAgent.executeAgentLoop llm execute
          maxIterations systemMessage history query).messages i)
    ∧ ((OrchestratorAgent.executeAgentLoop llm execute maxIterations
          systemMessage history query).content = iterationLimitSentinel
        ∨ ∃ ms ∈ (OrchestratorAgent.executeAgentLoop llm execute
            maxIterations systemMessage history query).llmCalls,
            (llm ms).toolCalls = []
            ∧ (OrchestratorAgent.executeAgentLoop llm execute maxIterations
                systemMessage history query).content = (llm ms).content) := by
  have h := loopGo_spec llm execute maxIterations
    (OrchestratorAgent.buildMessages systemMessage history query) 0 []
    (buildMessages_balanced systemMessage history query)
    (by intro ms hms; cases hms)
  exact ⟨by simpa using h.1, h.2.1, h.2.2.1, h.2.2.2⟩

/-- An LLM that always asks for one more tool call. -/
def alwaysToolLLM : List ChatMessage → ChatResponse :=
  fun _ => { content := "looking",
             toolCalls := [{ id := "t1", name := "search_memory" }] }

/-- Counterexample for C4 as stated: with the default 5 iterations and an
LLM that always requests a tool, the loop returns the code's sentinel
literal, which is capitalized and ends in a period — not the claimed
lowercase sentinel "unable to complete request within iteration limit". -/
theorem agentLoop_sentinel_literal :
    (OrchestratorAgent.executeAgentLoop alwaysToolLLM (fun _ => "[]") 5
      "sys" [] "who fixed it?").content = iterationLimitSentinel
    ∧ iterationLimitSentinel
      ≠ "unable to complete request within iteration limit" := by
  exact ⟨rfl, by decide⟩

/-! ## Ingestion worker (packages/workers/src/ingestion/worker.ts) -/

/-- Data of one ingestion job. -/
structure IngestionJobData where
  source : String
  eventType : String
  externalId : Option String := none
  payload : PayloadM := {}
  metadata : List (String × String) := []
  deriving Repr, DecidableEq

/-- A row of the `raw_events` table. -/
structure RawEventRow where
  id : String
  source : String
  eventType : String
  externalId : Option String := none
  payload : PayloadM := {}
  metadata : List (String × String) := []
  processingStatus : String := "pending"
  deriving Repr, DecidableEq

/-- The row `prisma.rawEvent.create` inserts: the job's fields with
`processing_status = 'pending'`. -/
def IngestionWorker.ingestedRow (data : IngestionJobData)
    (freshId : String) : RawEventRow :=
  { id := freshId, source := data.source, eventType := data.eventType,
    externalId := data.externalId, payload := data.payload,
    metadata := data.metadata, processingStatus := "pending" }

/-- Model of `IngestionWorker.processJob`: when `externalId` is truthy and a row with
the same `(source, externalId)` exists, drop the event; otherwise insert a
`RawEvent` with `processing_status = 'pending'`.  The enqueue of a follow-up
`processing` job is absent from the code (it is a commented-out `TODO`), so
the processing-job queue is returned unchanged in every branch. -/
def IngestionWorker.processJob (db : List RawEventRow)
    (processingQueue : List String) (data : IngestionJobData)
    (freshId : String) : List RawEventRow × List String :=
  if truthyStr data.externalId
      && (db.find? (fun e => e.source == data.source
            && e.externalId == data.externalId)).isSome then
    (db, processingQueue)
  else
    (db ++ [IngestionWorker.ingestedRow data freshId], processingQueue)

/-- The ingestion job used as C9's failing input. -/
def jobSlackE1 : IngestionJobData :=
  { source := "slack", eventType := "message", externalId := some "E1" }

/-- C9: the dedup and insert steps behave as claimed (drop on an existing
`(source, externalId)` row, otherwise insert with status `pending`), but no
`processing` job is ever enqueued — the new-row branch leaves the queue
unchanged (the enqueue is a commented-out `TODO` in the code); in particular
ingesting a fresh slack event into an empty table inserts the pending row
and enqueues nothing. -/
theorem processJob_inserts_pending_but_never_enqueues
    (db : List RawEventRow) (processingQueue : List String)
    (data : IngestionJobData) (freshId : String) :
    (IngestionWorker.processJob db processingQueue data freshId).2
      = processingQueue
    ∧ (IngestionWorker.processJob db processingQueue data freshId).1
      = (if truthyStr data.externalId
            && (db.find? (fun e => e.source == data.source
                  && e.externalId == data.externalId)).isSome then db
         else db ++ [IngestionWorker.ingestedRow data freshId])
    ∧ (IngestionWorker.ingestedRow data freshId).processingStatus = "pending"
    ∧ IngestionWorker.processJob [] [] jobSlackE1 "id1"
      = ([IngestionWorker.ingestedRow jobSlackE1 "id1"], []) := by
  refine ⟨?_, ?_, rfl, by decide⟩
  · simp only [IngestionWorker.processJob]
    split <;> rfl
  · simp only [IngestionWorker.processJob]
    split <;> rfl
